import Mathlib

/-!
Verification of the model-update core of `tensorforce/core/models/tensorforce.py`
(`TensorforceModel`): baseline-topology resolution at construction, update
scheduling in `core_observe`, experience ingestion (`api_experience`,
`core_experience`), memory capacity sizing, and the horizon-consistency check in
`optimize`.  Python/TensorFlow code is shallowly embedded: `long` tensors become
`Int` (or `Nat` where the data model restricts to non-negative flags), batched
tensors become lists, external collaborator modules (estimator, memory,
parameter modules) are treated as oracles or modelled from the specification
where their code is outside the analysed sources.
-/

/-- Errors raised at construction or at the call boundary
(`TensorforceError` / failing `assert` statements in the source). -/
inductive ConfigError where
  | assertionFailed
deriving DecidableEq

/-- The `baseline_optimizer` argument of `TensorforceModel.__init__`:
`None`, a `float` loss weight, or an optimizer module specification. -/
inductive BaselineOptimizerArg where
  | absent
  | weight (w : Rat)
  | module
deriving DecidableEq

/-- The default value resolved for `estimate_horizon`
(Python `False` or the string `'late'`). -/
inductive EstimateHorizonDefault where
  | off
  | late
deriving DecidableEq

/-- The baseline-related configuration resolved by `TensorforceModel.__init__`
(lines 154-231 of tensorforce.py): whether `self.baseline_optimizer` is a
module, the resolved `self.baseline_loss_weight`, the `is_trainable` flag given
to the baseline modules, `self.separate_baseline_policy`, presence of
`self.baseline_objective`, and the defaults computed for `estimate_horizon` and
`estimate_advantage`. -/
structure BaselineConfig where
  hasBaselineOptimizerModule : Bool
  baselineLossWeight : Option Rat
  is_trainable : Bool
  separate_baseline_policy : Bool
  hasBaselineObjective : Bool
  estimate_horizon : EstimateHorizonDefault
  estimate_advantage : Bool
deriving DecidableEq

/-- Embedding of the baseline-topology resolution in
`TensorforceModel.__init__` (tensorforce.py lines 154-231).
`baseline_policy` / `baseline_objective` record whether those arguments are
`None`; `estimate_advantage_key` is `reward_estimation.get('estimate_advantage')`
(`Option.none` when the key is absent).  Failing a Python `assert` is modelled
as `throw .assertionFailed`. -/
def constructBaseline (baseline_policy baseline_objective : Bool)
    (baseline_optimizer : BaselineOptimizerArg) (estimate_advantage_key : Option Bool) :
    Except ConfigError BaselineConfig := do
  -- lines 154-170: baseline optimizer
  let (hasOptModule, baseline_loss_weight) ←
    match baseline_optimizer with
    | .absent =>
        pure ((false : Bool),
          if baseline_objective then some (1 : Rat) else Option.none)
    | .weight w =>
        -- line 161: assert baseline_objective is not None
        if baseline_objective then pure ((false : Bool), some w)
        else throw .assertionFailed
    | .module =>
        -- line 165: assert baseline_objective is not None or baseline_policy is not None
        if baseline_objective || baseline_policy then pure ((true : Bool), Option.none)
        else throw .assertionFailed
  -- lines 173-180: is_trainable
  let is_trainable ←
    if (baseline_policy || baseline_objective) && !hasOptModule then
      -- lines 176-177: assert baseline_objective is not None or
      --                reward_estimation.get('estimate_advantage', True)
      if baseline_objective || estimate_advantage_key.getD true then pure true
      else throw ConfigError.assertionFailed
    else pure false
  -- lines 210-214: default estimate_horizon
  let estimate_horizon :=
    if !baseline_policy && !hasOptModule && !baseline_objective then
      EstimateHorizonDefault.off
    else EstimateHorizonDefault.late
  -- lines 215-219: default estimate_advantage
  let estimate_advantage := baseline_policy && !baseline_objective && !hasOptModule
  pure {
    hasBaselineOptimizerModule := hasOptModule
    baselineLossWeight := baseline_loss_weight
    is_trainable := is_trainable
    separate_baseline_policy := baseline_policy
    hasBaselineObjective := baseline_objective
    estimate_horizon := estimate_horizon
    estimate_advantage := estimate_advantage }

/-- Whether construction raised an error. -/
def raisesError {α : Type} (r : Except ConfigError α) : Bool :=
  match r with
  | .error _ => true
  | .ok _ => false

/-- C1: with default reward-estimation keys, construction fails exactly for a
float weight without a baseline objective (with or without baseline policy) and
for an optimizer module with neither objective nor baseline policy; every other
combination succeeds and resolves the default `estimate_horizon` to off exactly
when all three baseline inputs are absent, the default `estimate_advantage` to
true exactly when a separate baseline policy comes with no objective and no
optimizer, and `is_trainable` to true exactly when a baseline policy or
objective is present and no full optimizer module is given. -/
theorem C1_baseline_topology (bp bo : Bool) (opt : BaselineOptimizerArg) :
    (raisesError (constructBaseline bp bo opt Option.none) = true ↔
      ((∃ w, opt = .weight w) ∧ bo = false) ∨
        (opt = .module ∧ bo = false ∧ bp = false)) ∧
    (∀ c, constructBaseline bp bo opt Option.none = .ok c →
      (c.estimate_horizon = .off ↔ bp = false ∧ bo = false ∧ opt = .absent) ∧
      (c.estimate_advantage = true ↔ bp = true ∧ bo = false ∧ opt = .absent) ∧
      (c.is_trainable = true ↔ (bp = true ∨ bo = true) ∧ opt ≠ .module)) := by
  cases bp <;> cases bo <;> rcases opt with _ | w | _ <;>
    simp [constructBaseline, raisesError, Except.pure, Except.bind, pure, Bind.bind] <;>
    intro c hc <;> cases hc <;> simp

/-- Witness for C1 at the concrete input: separate baseline policy, no
objective, no optimizer — construction succeeds with estimate_advantage
defaulting to true. -/
theorem C1_baseline_topology_witness :
    ((⟨false, Option.none, true, true, false, .late, true⟩ :
        BaselineConfig).estimate_advantage = true ↔
      true = true ∧ false = false ∧ BaselineOptimizerArg.absent = .absent) :=
  ((C1_baseline_topology true false .absent).2
    ⟨false, Option.none, true, true, false, .late, true⟩ rfl).2.1

/-- The batch unit of the update configuration (`update['unit']`). -/
inductive UpdateUnit where
  | timesteps
  | episodes
deriving DecidableEq

/-- Embedding of the horizon-consistency assertion in `TensorforceModel.optimize`
(tensorforce.py lines 767-778): when a separate baseline policy exists and
`self.baseline_optimizer is None`, assert that the policy's and the baseline's
on-policy past horizons agree; otherwise no check is performed.  Returns `true`
when no assertion fails. -/
def optimize_horizon_ok (separate_baseline_policy hasBaselineOptimizerModule : Bool)
    (policyPastHorizonOn baselinePastHorizonOn : Int) : Bool :=
  if separate_baseline_policy && !hasBaselineOptimizerModule then
    policyPastHorizonOn == baselinePastHorizonOn
  else
    true

/-- C9: in `optimize`, a fatal consistency error is raised exactly when a
separate baseline policy without its own optimizer module disagrees with the
main policy on the on-policy past horizon; with a separate baseline optimizer
module no equality is required. -/
theorem C9_optimize_horizon_consistency (sep hasMod : Bool) (p b : Int) :
    optimize_horizon_ok sep hasMod p b = false ↔
      sep = true ∧ hasMod = false ∧ p ≠ b := by
  cases sep <;> cases hasMod <;> simp [optimize_horizon_ok]

/-- Embedding of the memory `min_capacity` computation in
`TensorforceModel.__init__` (tensorforce.py lines 236-254).  Arguments are the
values of `self.update_batch_size.max_value()`,
`self.policy.max_past_horizon(on_policy=True)`,
`self.baseline.max_past_horizon(on_policy=True)`,
`self.estimator.min_future_horizon()`, `self.estimator.max_future_horizon()`,
`self.separate_baseline_policy`, and `max_episode_timesteps`. -/
def memory_min_capacity (update_unit : UpdateUnit) (batchSizeMax : Int)
    (policyMaxPastOn baselineMaxPastOn estMinFuture estMaxFuture : Int)
    (separate_baseline_policy : Bool) (max_episode_timesteps : Option Int) : Int :=
  match update_unit with
  | .timesteps =>
      let maxPast :=
        if separate_baseline_policy then
          max policyMaxPastOn (baselineMaxPastOn - estMinFuture)
        else policyMaxPastOn
      batchSizeMax + 1 + maxPast + estMaxFuture
  | .episodes =>
      match max_episode_timesteps with
      | Option.none => 0
      | some m => (batchSizeMax + 1) * m

/-- Modelled from the spec: the memory module (not among the analysed sources)
validates its configured capacity against `min_capacity` at construction;
undersizing is a construction-time configuration error. -/
def memory_construct (capacity min_capacity : Int) : Except ConfigError Int :=
  if capacity < min_capacity then throw .assertionFailed else pure capacity

/-- C8: the memory minimum capacity is `batch-size max + 1 + largest past
horizon (baseline's on-policy past horizon reduced by the estimator's minimum
future horizon when a separate baseline exists) + maximum future horizon` in
timesteps mode, and `(batch-size max + 1) * max_episode_timesteps` in episodes
mode; a configured capacity below this bound is a construction-time error. -/
theorem C8_memory_min_capacity (b p bl minF maxF : Int) (sep : Bool) :
    (∀ met, memory_min_capacity .timesteps b p bl minF maxF sep met =
      b + 1 + (if sep then max p (bl - minF) else p) + maxF) ∧
    (∀ m, memory_min_capacity .episodes b p bl minF maxF sep (some m) =
      (b + 1) * m) ∧
    (∀ cap minc, raisesError (memory_construct cap minc) = true ↔ cap < minc) := by
  refine ⟨fun met => rfl, fun m => rfl, fun cap minc => ?_⟩
  by_cases h : cap < minc <;> simp [memory_construct, raisesError, h, throw, throwThe,
    MonadExcept.throw, pure, Except.pure]

/-- Modelled from the spec: parameter modules (not among the analysed sources)
are validated at construction; a constant parameter value outside the given
`min_value`/`max_value` bounds is a configuration error, and a constant
parameter's `max_value()` is its value. -/
def parameter_constant (value : Int) (min_value max_value : Option Int) :
    Except ConfigError Int :=
  if min_value.getD value ≤ value ∧ value ≤ max_value.getD value then pure value
  else throw .assertionFailed

/-- The `update['frequency']` argument: absent, the string `'never'`, or a
numeric value. -/
inductive FrequencyArg where
  | absent
  | never
  | val (f : Int)
deriving DecidableEq

/-- The update configuration resolved by `TensorforceModel.__init__`:
`update_frequency` and `update_start` are `Option.none` when
`update['frequency'] == 'never'` (they are not created in that case). -/
structure UpdateConfigResolved where
  update_batch_size : Int
  update_frequency : Option Int
  update_start : Option Int
deriving DecidableEq

/-- Embedding of the update batch-size/frequency/start module creation in
`TensorforceModel.__init__` (tensorforce.py lines 110-126): the batch size is a
parameter with `min_value=1`; when frequency is `'never'` no frequency or start
parameter is created; otherwise the frequency parameter is built from
`update.get('frequency', update['batch_size'])` with `min_value=1` and
`max_value=max(2, update_batch_size.max_value())`, and the start parameter from
`update.get('start', 0)` with `min_value=0`. -/
def construct_update (batch_size : Int) (frequency : FrequencyArg)
    (start : Option Int) : Except ConfigError UpdateConfigResolved := do
  let bs ← parameter_constant batch_size (some 1) Option.none
  match frequency with
  | .never => pure ⟨bs, Option.none, Option.none⟩
  | .absent => do
      let f ← parameter_constant batch_size (some 1) (some (max 2 bs))
      let s ← parameter_constant (start.getD 0) (some 0) Option.none
      pure ⟨bs, some f, some s⟩
  | .val v => do
      let f ← parameter_constant v (some 1) (some (max 2 bs))
      let s ← parameter_constant (start.getD 0) (some 0) Option.none
      pure ⟨bs, some f, some s⟩

theorem parameter_constant_some_some (v lo hi : Int) :
    parameter_constant v (some lo) (some hi) =
      if lo ≤ v ∧ v ≤ hi then Except.ok v else Except.error .assertionFailed := rfl

theorem parameter_constant_some_none (v lo : Int) :
    parameter_constant v (some lo) Option.none =
      if lo ≤ v ∧ v ≤ v then Except.ok v else Except.error .assertionFailed := rfl

theorem construct_update_absent_eq (b : Int) (hb : 1 ≤ b) :
    construct_update b .absent Option.none = Except.ok ⟨b, some b, some 0⟩ := by
  have h1 : parameter_constant b (some 1) Option.none = Except.ok b := by
    rw [parameter_constant_some_none, if_pos ⟨hb, le_refl b⟩]
  have h2 : parameter_constant b (some 1) (some (max 2 b)) = Except.ok b := by
    rw [parameter_constant_some_some, if_pos ⟨hb, le_max_right 2 b⟩]
  have h3 : parameter_constant 0 (some 0) Option.none = Except.ok 0 := by
    rw [parameter_constant_some_none, if_pos ⟨le_refl 0, le_refl 0⟩]
  simp only [construct_update, Option.getD_none, h1, h2, h3, Bind.bind, Except.bind,
    pure, Except.pure]

theorem construct_update_val_eq (b f : Int) (hb : 1 ≤ b) :
    construct_update b (.val f) Option.none =
      if 1 ≤ f ∧ f ≤ max 2 b then Except.ok ⟨b, some f, some 0⟩
      else Except.error ConfigError.assertionFailed := by
  have h1 : parameter_constant b (some 1) Option.none = Except.ok b := by
    rw [parameter_constant_some_none, if_pos ⟨hb, le_refl b⟩]
  have h3 : parameter_constant 0 (some 0) Option.none = Except.ok 0 := by
    rw [parameter_constant_some_none, if_pos ⟨le_refl 0, le_refl 0⟩]
  by_cases hf : 1 ≤ f ∧ f ≤ max 2 b
  · have h2 : parameter_constant f (some 1) (some (max 2 b)) = Except.ok f := by
      rw [parameter_constant_some_some, if_pos hf]
    rw [if_pos hf]
    simp only [construct_update, Option.getD_none, h1, h2, h3, Bind.bind, Except.bind,
      pure, Except.pure]
  · have h2 : parameter_constant f (some 1) (some (max 2 b)) =
        Except.error .assertionFailed := by
      rw [parameter_constant_some_some, if_neg hf]
    rw [if_neg hf]
    simp only [construct_update, Option.getD_none, h1, h2, h3, Bind.bind, Except.bind,
      pure, Except.pure]

/-- C10: with the frequency key omitted, the frequency parameter is created
from the batch-size value; a numeric frequency is accepted exactly when it lies
between 1 and `max 2 batch_size`, so a frequency larger than the batch size
(beyond the floor of 2) is rejected at construction. -/
theorem C10_frequency_default (b f : Int) (hb : 1 ≤ b) :
    construct_update b .absent Option.none = .ok ⟨b, some b, some 0⟩ ∧
    ((∃ c, construct_update b (.val f) Option.none = .ok c) ↔ 1 ≤ f ∧ f ≤ max 2 b) ∧
    (∀ c, construct_update b (.val f) Option.none = .ok c →
      c.update_frequency = some f) := by
  refine ⟨construct_update_absent_eq b hb, ?_, ?_⟩
  · rw [construct_update_val_eq b f hb]
    by_cases hf : 1 ≤ f ∧ f ≤ max 2 b
    · rw [if_pos hf]
      exact ⟨fun _ => hf, fun _ => ⟨_, rfl⟩⟩
    · rw [if_neg hf]
      constructor
      · rintro ⟨c, hc⟩
        cases hc
      · intro h
        exact absurd h hf
  · intro c hc
    rw [construct_update_val_eq b f hb] at hc
    by_cases hf : 1 ≤ f ∧ f ≤ max 2 b
    · rw [if_pos hf] at hc
      cases hc
      rfl
    · rw [if_neg hf] at hc
      cases hc

/-- Witness for C10 at batch size 8 and frequency 9: the default frequency is
the batch size, and frequency 9 (larger than `max 2 8`) is rejected. -/
theorem C10_frequency_default_witness :
    construct_update 8 .absent Option.none = .ok ⟨8, some 8, some 0⟩ ∧
    ((∃ c, construct_update 8 (.val 9) Option.none = .ok c) ↔
      1 ≤ (9 : Int) ∧ (9 : Int) ≤ max 2 8) :=
  ⟨(C10_frequency_default 8 9 (by decide)).1, (C10_frequency_default 8 9 (by decide)).2.1⟩

/-- Static configuration consumed by the scheduling part of
`TensorforceModel.core_observe` (tensorforce.py lines 586-630):
`update_frequency` is `Option.none` when `update['frequency'] == 'never'`
(lines 115-116), `updateStart` is the value of `self.update_start`,
`policyPastOn` is `self.policy.past_horizon(on_policy=True)`, `baselinePastOn`
the baseline's, `estFuture` is `self.estimator.future_horizon()`. -/
structure ObserveConfig where
  update_unit : UpdateUnit
  update_frequency : Option Int
  updateStart : Int
  policyPastOn : Int
  baselinePastOn : Int
  estFuture : Int
  separate_baseline_policy : Bool
deriving DecidableEq

/-- The past horizon used by the scheduling check (tensorforce.py lines
598-605): maximized with the baseline's on-policy past horizon minus the
estimator's future horizon when a separate baseline exists. -/
def updatePastHorizon (cfg : ObserveConfig) : Int :=
  if cfg.separate_baseline_policy then
    max cfg.policyPastOn (cfg.baselinePastOn - cfg.estFuture)
  else cfg.policyPastOn

/-- The clamped `start` (tensorforce.py lines 607-609 and 614). -/
def clampedStart (cfg : ObserveConfig) (frequency : Int) : Int :=
  match cfg.update_unit with
  | .timesteps =>
      max cfg.updateStart (frequency + updatePastHorizon cfg + cfg.estFuture + 1)
  | .episodes => max cfg.updateStart frequency

/-- The unit counter read by the check: the global timestep in `timesteps`
mode, the global episode in `episodes` mode (lines 610 and 615). -/
def unitCounter (cfg : ObserveConfig) (timestep episode : Int) : Int :=
  match cfg.update_unit with
  | .timesteps => timestep
  | .episodes => episode

/-- The shifted unit value `unit - start` (line 617); this is also the value
assigned to `last_update` when an update fires (line 622). -/
def shiftedUnit (cfg : ObserveConfig) (frequency timestep episode : Int) : Int :=
  unitCounter cfg timestep episode - clampedStart cfg frequency

/-- Result of one `core_observe` call: whether `core_experience` ran, whether
`core_update` was triggered, and the resulting `last_update` variable. -/
structure ObserveResult where
  experienced : Bool
  updated : Bool
  last_update : Int
deriving DecidableEq

/-- Embedding of `TensorforceModel.core_observe` (tensorforce.py lines
575-630): experience is always recorded; when `update['frequency']` is
`'never'` (`update_frequency = Option.none`) the call returns immediately;
otherwise the update fires iff `(unit - start) mod frequency == 0` and
`unit - start > last_update`, in which case `last_update` is assigned the
shifted unit value and `core_update` runs. -/
def core_observe (cfg : ObserveConfig) (timestep episode last_update : Int) :
    ObserveResult :=
  match cfg.update_frequency with
  | Option.none => ⟨true, false, last_update⟩
  | some frequency =>
      let u := shiftedUnit cfg frequency timestep episode
      if u % frequency = 0 ∧ last_update < u then ⟨true, true, u⟩
      else ⟨true, false, last_update⟩

/-- Initial value of the `last-update` variable
(`TensorforceModel.tf_initialize`, tensorforce.py lines 328-331). -/
def last_update_init : Int := -1

/-- `last_update` after a sequence of `core_observe` calls, each call given by
its (global timestep, global episode) counter pair. -/
def observeRun (cfg : ObserveConfig) (calls : List (Int × Int))
    (last_update : Int) : Int :=
  calls.foldl (fun l c => (core_observe cfg c.1 c.2 l).last_update) last_update

theorem core_observe_none_eq (cfg : ObserveConfig) (t e l : Int)
    (hf : cfg.update_frequency = Option.none) :
    core_observe cfg t e l = ⟨true, false, l⟩ := by
  simp only [core_observe, hf]

theorem core_observe_some_eq (cfg : ObserveConfig) (f t e l : Int)
    (hf : cfg.update_frequency = some f) :
    core_observe cfg t e l =
      if shiftedUnit cfg f t e % f = 0 ∧ l < shiftedUnit cfg f t e then
        ⟨true, true, shiftedUnit cfg f t e⟩
      else ⟨true, false, l⟩ := by
  simp only [core_observe, hf]

/-- C2: with a configured (non-never) frequency, the update fires iff the
shifted counter `unit - start` (with `start` clamped to at least
`frequency + past_horizon + future_horizon + 1` in timesteps mode — the past
horizon maximized with the baseline's minus the estimator's future horizon
when a separate baseline exists — and to at least `frequency` in episodes
mode) is divisible by the frequency and strictly exceeds `last_update`. -/
theorem C2_scheduler_fires (cfg : ObserveConfig) (f t e l : Int)
    (hf : cfg.update_frequency = some f) :
    (core_observe cfg t e l).updated = true ↔
      ((cfg.update_unit = .timesteps ∧
          (t - max cfg.updateStart
            (f + (if cfg.separate_baseline_policy then
                    max cfg.policyPastOn (cfg.baselinePastOn - cfg.estFuture)
                  else cfg.policyPastOn) + cfg.estFuture + 1)) % f = 0 ∧
          l < t - max cfg.updateStart
            (f + (if cfg.separate_baseline_policy then
                    max cfg.policyPastOn (cfg.baselinePastOn - cfg.estFuture)
                  else cfg.policyPastOn) + cfg.estFuture + 1)) ∨
        (cfg.update_unit = .episodes ∧
          (e - max cfg.updateStart f) % f = 0 ∧
          l < e - max cfg.updateStart f)) := by
  rcases cfg with ⟨unit, freq, st, pp, bp, ef, sep⟩
  replace hf : freq = some f := hf
  subst hf
  rcases unit with _ | _ <;>
    simp only [core_observe, shiftedUnit, unitCounter, clampedStart, updatePastHorizon] <;>
    split_ifs <;>
    simp_all

/-- Witness for C2 at a concrete configuration: timesteps mode, frequency 4,
start 0, zero horizons, timestep 5, last_update -1 — the clamp makes start 5,
the shifted unit 0, and the update fires. -/
theorem C2_scheduler_fires_witness :
    (core_observe ⟨.timesteps, some 4, 0, 0, 0, 0, false⟩ 5 0 (-1)).updated = true ↔
      ((UpdateUnit.timesteps = .timesteps ∧
          ((5 : Int) - max 0 (4 + (if false then max 0 (0 - 0) else 0) + 0 + 1)) % 4 = 0 ∧
          (-1 : Int) < 5 - max 0 (4 + (if false then max 0 (0 - 0) else 0) + 0 + 1)) ∨
        (UpdateUnit.timesteps = .episodes ∧
          ((0 : Int) - max 0 4) % 4 = 0 ∧ (-1 : Int) < 0 - max 0 4)) :=
  C2_scheduler_fires ⟨.timesteps, some 4, 0, 0, 0, 0, false⟩ 4 5 0 (-1) rfl

/-- C3: when `update['frequency']` is `'never'`, every `core_observe` call only
records experience, never triggers `core_update`, and leaves `last_update`
unchanged. -/
theorem C3_never_disables_updates (cfg : ObserveConfig) (t e l : Int)
    (h : cfg.update_frequency = Option.none) :
    (core_observe cfg t e l).experienced = true ∧
    (core_observe cfg t e l).updated = false ∧
    (core_observe cfg t e l).last_update = l := by
  simp [core_observe, h]

/-- Witness for C3 at a concrete never-frequency configuration. -/
theorem C3_never_disables_updates_witness :
    (core_observe ⟨.timesteps, Option.none, 0, 0, 0, 0, false⟩ 7 2 (-1)).experienced = true ∧
    (core_observe ⟨.timesteps, Option.none, 0, 0, 0, 0, false⟩ 7 2 (-1)).updated = false ∧
    (core_observe ⟨.timesteps, Option.none, 0, 0, 0, 0, false⟩ 7 2 (-1)).last_update = -1 :=
  C3_never_disables_updates ⟨.timesteps, Option.none, 0, 0, 0, 0, false⟩ 7 2 (-1) rfl

/-- C4: if a `core_observe` call fires an update, a second call with the same
counters and the stored `last_update` does not fire again: the strictly-greater
guard fails because `last_update` was assigned the shifted unit value. -/
theorem C4_no_double_fire (cfg : ObserveConfig) (t e l : Int)
    (h : (core_observe cfg t e l).updated = true) :
    (core_observe cfg t e ((core_observe cfg t e l).last_update)).updated = false := by
  rcases hf : cfg.update_frequency with _ | f
  · rw [core_observe_none_eq cfg t e l hf] at h
    cases h
  · rw [core_observe_some_eq cfg f t e l hf] at h
    by_cases hc : shiftedUnit cfg f t e % f = 0 ∧ l < shiftedUnit cfg f t e
    · rw [core_observe_some_eq cfg f t e l hf, if_pos hc]
      show (core_observe cfg t e (shiftedUnit cfg f t e)).updated = false
      rw [core_observe_some_eq cfg f t e (shiftedUnit cfg f t e) hf,
        if_neg (fun hcc => lt_irrefl _ hcc.2)]
    · rw [if_neg hc] at h
      cases h

/-- Witness for C4: at frequency 4 with timestep 5 the first call fires and
the repeated call does not. -/
theorem C4_no_double_fire_witness :
    (core_observe ⟨.timesteps, some 4, 0, 0, 0, 0, false⟩ 5 0
      ((core_observe ⟨.timesteps, some 4, 0, 0, 0, 0, false⟩ 5 0 (-1)).last_update)).updated
      = false :=
  C4_no_double_fire ⟨.timesteps, some 4, 0, 0, 0, 0, false⟩ 5 0 (-1) (by decide)

/-- C5: `last_update` is initialized to -1; a `core_observe` call either leaves
it unchanged or — exactly when the check fires — overwrites it with the shifted
unit value, which strictly exceeds the stored value; hence it never decreases
across any sequence of calls. -/
theorem C5_last_update_monotone :
    last_update_init = -1 ∧
    (∀ cfg t e l, l ≤ (core_observe cfg t e l).last_update) ∧
    (∀ cfg t e l, (core_observe cfg t e l).last_update = l ∨
      ∃ f, cfg.update_frequency = some f ∧
        l < shiftedUnit cfg f t e ∧
        (core_observe cfg t e l).last_update = shiftedUnit cfg f t e ∧
        (core_observe cfg t e l).updated = true) ∧
    (∀ cfg calls l, l ≤ observeRun cfg calls l) := by
  have step : ∀ cfg t e l, l ≤ (core_observe cfg t e l).last_update := by
    intro cfg t e l
    rcases hf : cfg.update_frequency with _ | f
    · rw [core_observe_none_eq cfg t e l hf]
    · rw [core_observe_some_eq cfg f t e l hf]
      by_cases hc : shiftedUnit cfg f t e % f = 0 ∧ l < shiftedUnit cfg f t e
      · rw [if_pos hc]
        exact le_of_lt hc.2
      · rw [if_neg hc]
  refine ⟨rfl, step, ?_, ?_⟩
  · intro cfg t e l
    rcases hf : cfg.update_frequency with _ | f
    · left
      rw [core_observe_none_eq cfg t e l hf]
    · rw [core_observe_some_eq cfg f t e l hf]
      by_cases hc : shiftedUnit cfg f t e % f = 0 ∧ l < shiftedUnit cfg f t e
      · rw [if_pos hc]
        right
        refine ⟨f, ?_, hc.2, rfl, rfl⟩
        first
        | exact hf
        | rfl
      · rw [if_neg hc]
        left
        rfl
  · intro cfg calls
    induction calls with
    | nil => intro l; exact le_refl l
    | cons c cs ih =>
        intro l
        exact le_trans (step cfg c.1 c.2 l) (ih _)

/-- A value component as handled by `core_experience`: either a flat tensor
(only the batch axis is modelled) or a nested dict of tensors
(`util.is_nested` components such as states/internals/auxiliaries/actions). -/
inductive TfValue where
  | flat (xs : List Int)
  | nested (xs : List (String × List Int))
deriving DecidableEq

/-- An `OrderedDict` of named value components (per `self.values_spec`). -/
abbrev ValuesDict := List (String × TfValue)

/-- Concatenation of two value components along the batch axis
(`tf.concat(values=(value1, value2), axis=0)` in tensorforce.py lines 657-665),
applied per inner component for nested values (inner `util.zip_items`). -/
def concatValue : TfValue → TfValue → TfValue
  | .flat v1, .flat v2 => .flat (v1 ++ v2)
  | .nested v1, .nested v2 =>
      .nested (List.zipWith (fun p q => (p.1, p.2 ++ q.2)) v1 v2)
  | v1, _ => v1

/-- The `true_fn` of `core_experience` (tensorforce.py lines 650-666):
`util.zip_items` over the overwritten values and the reset values,
concatenating each component along the batch axis. -/
def mergeOnTerminal (overwritten_values reset_values : ValuesDict) : ValuesDict :=
  List.zipWith (fun p q => (p.1, concatValue p.2 q.2))
    overwritten_values reset_values

/-- The `'terminal'` component of a values dict (`values['terminal']`,
tensorforce.py line 678). -/
def valuesTerminal (values : ValuesDict) : List Int :=
  match values.lookup "terminal" with
  | some (.flat xs) => xs
  | _ => []

/-- Embedding of `TensorforceModel.core_experience` (tensorforce.py lines
632-688) with the estimator treated as an oracle: `overwritten_values` is the
second result of `self.estimator.enqueue(...)` on the current batch,
`reset_values` the result of `self.estimator.reset(...)`, `terminal` the
batch's terminal input.  Returns the values passed to `self.memory.enqueue`,
or `Option.none` when the enqueue is skipped (`num_values > 0` false). -/
def core_experience (overwritten_values reset_values : ValuesDict)
    (terminal : List Int) : Option ValuesDict :=
  let values :=
    if 0 < terminal.getLastD 0 then mergeOnTerminal overwritten_values reset_values
    else overwritten_values
  if 0 < (valuesTerminal values).length then some values else Option.none

/-- C7: after enqueueing, if the batch's last terminal flag is positive the
committed values are, per component (nested ones included), the estimator's
overwritten values concatenated with the reset (forced flush) values along the
batch axis, otherwise the overwritten values alone; `memory.enqueue` runs iff
the resulting union's terminal component is non-empty. -/
theorem C7_core_experience_merge (ov rv : ValuesDict) (terminal : List Int)
    (hne : terminal ≠ []) :
    (core_experience ov rv terminal =
      (let values :=
        if 0 < terminal.getLast hne then mergeOnTerminal ov rv else ov
       if 0 < (valuesTerminal values).length then some values else Option.none)) ∧
    (∀ i : Nat, (mergeOnTerminal ov rv)[i]? =
      (ov[i]?.map fun p => fun q => (p.1, concatValue p.2 q.2)).bind fun g =>
        rv[i]?.map g) := by
  constructor
  · have hLD : terminal.getLastD 0 = terminal.getLast hne := by
      rw [List.getLastD_eq_getLast?, List.getLast?_eq_getLast terminal hne]
      rfl
    simp only [core_experience, hLD]
  · intro i
    simp [mergeOnTerminal, List.getElem?_zipWith']

/-- Witness for C7 at a concrete terminal batch ending in a terminal flag. -/
theorem C7_core_experience_merge_witness :
    core_experience [("terminal", TfValue.flat [0])] [("terminal", TfValue.flat [1])]
        [1] =
      (let values :=
        if 0 < ([1] : List Int).getLast (by decide) then
          mergeOnTerminal [("terminal", TfValue.flat [0])]
            [("terminal", TfValue.flat [1])]
        else [("terminal", TfValue.flat [0])]
       if 0 < (valuesTerminal values).length then some values else Option.none) :=
  (C7_core_experience_merge [("terminal", TfValue.flat [0])]
    [("terminal", TfValue.flat [1])] [1] (by decide)).1

/-- Embedding of the batch-content precondition assertions of
`TensorforceModel.api_experience` (tensorforce.py lines 369-386): the parallel
buffer indices must sum to zero (not mid-episode), the batch may contain at
most one non-zero terminal flag (`tf.math.count_nonzero`), and
`reduce_any(terminal > 0)` must equal `terminal[-1] > 0` (terminal, if any, is
the last timestep).  Terminal flags are non-negative in the data model, hence
embedded as `Nat`. -/
def api_experience_assertions (buffer_index terminal : List Nat) : Bool :=
  (buffer_index.sum == 0) &&
  (decide ((terminal.filter (fun t => t != 0)).length ≤ 1)) &&
  (terminal.any (fun t => decide (0 < t)) == decide (0 < terminal.getLastD 0))

/-- Embedding of `TensorforceModel.api_experience` (tensorforce.py lines
333-491) restricted to the modelled content: the assertions guard
`core_experience` through control dependencies, so a violated precondition
raises and nothing is recorded. -/
def api_experience (buffer_index : List Nat)
    (overwritten_values reset_values : ValuesDict) (terminal : List Nat) :
    Except ConfigError (Option ValuesDict) :=
  if api_experience_assertions buffer_index terminal then
    pure (core_experience overwritten_values reset_values (terminal.map Int.ofNat))
  else throw .assertionFailed

theorem terminal_not_last_of_any_ne (t : List Nat) (hne : t ≠ [])
    (h : t.any (fun x => decide (0 < x)) ≠ decide (0 < t.getLast hne)) :
    ∃ i, ∃ hi : i < t.length, t.get ⟨i, hi⟩ ≠ 0 ∧ i + 1 ≠ t.length := by
  by_cases hL : 0 < t.getLast hne
  · exfalso
    apply h
    have h1 : t.any (fun x => decide (0 < x)) = true :=
      List.any_eq_true.mpr ⟨t.getLast hne, List.getLast_mem hne, decide_eq_true hL⟩
    rw [h1, decide_eq_true hL]
  · have hL0 : t.getLast hne = 0 := Nat.eq_zero_of_not_pos hL
    have hdec : decide (0 < t.getLast hne) = false := decide_eq_false hL
    rw [hdec] at h
    have hany : t.any (fun x => decide (0 < x)) = true := Bool.ne_false_iff.mp h
    rcases List.any_eq_true.mp hany with ⟨x, hx, hpx⟩
    rcases List.mem_iff_get.mp hx with ⟨⟨i, hi⟩, hget⟩
    have hx0 : 0 < x := of_decide_eq_true hpx
    refine ⟨i, hi, ?_, ?_⟩
    · rw [hget]
      exact Nat.pos_iff_ne_zero.mp hx0
    · intro hlen
      have hi' : i = t.length - 1 := by omega
      subst hi'
      have hxL : x = t.getLast hne := by
        rw [← hget, List.getLast_eq_getElem t hne, List.get_eq_getElem]
      rw [hxL, hL0] at hx0
      exact Nat.lt_irrefl 0 hx0

theorem filter_two_of_nonlast (t : List Nat) (hne : t ≠ [])
    (hL : 0 < t.getLast hne) (i : Nat) (hi : i < t.length)
    (hiz : t.get ⟨i, hi⟩ ≠ 0) (hilen : i + 1 ≠ t.length) :
    1 < (t.filter (fun x => x != 0)).length := by
  have hlen : t.dropLast.length = t.length - 1 := List.length_dropLast t
  have hidrop : i < t.dropLast.length := by omega
  have hmem : t.get ⟨i, hi⟩ ∈ t.dropLast := by
    have hdl : t.dropLast[i] = t[i] := List.getElem_dropLast t i hidrop
    rw [List.get_eq_getElem, ← hdl]
    have := List.get_mem t.dropLast i hidrop
    rw [List.get_eq_getElem] at this
    exact this
  have h1 : 0 < (t.dropLast.filter (fun x => x != 0)).length := by
    apply List.length_pos.mpr
    apply List.ne_nil_of_mem (a := t.get ⟨i, hi⟩)
    exact List.mem_filter.mpr ⟨hmem, by simpa using hiz⟩
  have h2 : (t.filter (fun x => x != 0)).length =
      (t.dropLast.filter (fun x => x != 0)).length +
      ([t.getLast hne].filter (fun x => x != 0)).length := by
    conv_lhs => rw [← List.dropLast_append_getLast hne]
    rw [List.filter_append, List.length_append]
  have h3 : ([t.getLast hne].filter (fun x => x != 0)).length = 1 := by
    have hb : (t.getLast hne != 0) = true := by
      simpa using Nat.pos_iff_ne_zero.mp hL
    simp [List.filter_singleton, hb]
  omega

theorem any_ne_last_of_nonlast (t : List Nat) (hne : t ≠ [])
    (hL : t.getLast hne = 0) (i : Nat) (hi : i < t.length)
    (hiz : t.get ⟨i, hi⟩ ≠ 0) :
    t.any (fun x => decide (0 < x)) ≠ decide (0 < t.getLast hne) := by
  have h1 : t.any (fun x => decide (0 < x)) = true := by
    apply List.any_eq_true.mpr
    refine ⟨t.get ⟨i, hi⟩, ?_, decide_eq_true (Nat.pos_iff_ne_zero.mpr hiz)⟩
    have := List.get_mem t i hi
    exact this
  rw [h1, hL]
  simp

theorem api_experience_assertions_false_iff (buf t : List Nat) (hne : t ≠ []) :
    api_experience_assertions buf t = false ↔
      1 < (t.filter (fun x => x != 0)).length
      ∨ (∃ i, ∃ hi : i < t.length, t.get ⟨i, hi⟩ ≠ 0 ∧ i + 1 ≠ t.length)
      ∨ buf.sum ≠ 0 := by
  have hLD : t.getLastD 0 = t.getLast hne := by
    rw [List.getLastD_eq_getLast?, List.getLast?_eq_getLast t hne]
    rfl
  constructor
  · intro hfalse
    by_cases hA : buf.sum = 0
    · by_cases hB : (t.filter (fun x => x != 0)).length ≤ 1
      · have hC : t.any (fun x => decide (0 < x)) ≠ decide (0 < t.getLastD 0) := by
          intro hC
          rw [api_experience_assertions] at hfalse
          simp [hA, hB, hC] at hfalse
        rw [hLD] at hC
        exact Or.inr (Or.inl (terminal_not_last_of_any_ne t hne hC))
      · exact Or.inl (Nat.lt_of_not_le hB)
    · exact Or.inr (Or.inr hA)
  · intro h
    rcases h with hcount | ⟨i, hi, hiz, hilen⟩ | hsum
    · have hdec : decide ((t.filter (fun x => x != 0)).length ≤ 1) = false :=
        decide_eq_false (not_le.mpr hcount)
      rw [api_experience_assertions, hdec]
      simp
    · by_cases hL : 0 < t.getLast hne
      · have hcount := filter_two_of_nonlast t hne hL i hi hiz hilen
        have hdec : decide ((t.filter (fun x => x != 0)).length ≤ 1) = false :=
          decide_eq_false (not_le.mpr hcount)
        rw [api_experience_assertions, hdec]
        simp
      · have hL0 : t.getLast hne = 0 := Nat.eq_zero_of_not_pos hL
        have hne2 := any_ne_last_of_nonlast t hne hL0 i hi hiz
        have hbeq : (t.any (fun x => decide (0 < x)) ==
            decide (0 < t.getLastD 0)) = false := by
          rw [hLD]
          exact beq_eq_false_iff_ne.mpr hne2
        rw [api_experience_assertions, hbeq]
        simp
    · have hbeq : (buf.sum == 0) = false := beq_eq_false_iff_ne.mpr hsum
      rw [api_experience_assertions, hbeq]
      simp

/-- C6: `api_experience` raises a precondition error, recording nothing,
exactly when the batch has more than one non-zero terminal flag, or a non-zero
terminal flag that is not the last element, or the internal buffer index is
non-zero (mid-episode); otherwise the assertions pass and the batch is handed
to `core_experience`. -/
theorem C6_api_experience_preconditions (buf t : List Nat) (ov rv : ValuesDict)
    (hne : t ≠ []) :
    (api_experience buf ov rv t = .error .assertionFailed ↔
      1 < (t.filter (fun x => x != 0)).length
      ∨ (∃ i, ∃ hi : i < t.length, t.get ⟨i, hi⟩ ≠ 0 ∧ i + 1 ≠ t.length)
      ∨ buf.sum ≠ 0) ∧
    (api_experience buf ov rv t ≠ .error .assertionFailed →
      api_experience buf ov rv t =
        .ok (core_experience ov rv (t.map Int.ofNat))) := by
  have hiff := api_experience_assertions_false_iff buf t hne
  constructor
  · rw [← hiff]
    cases hval : api_experience_assertions buf t <;>
      simp [api_experience, hval, pure, Except.pure, throw, throwThe,
        MonadExcept.throw, MonadExceptOf.throw]
  · intro hok
    cases hval : api_experience_assertions buf t
    · exfalso
      apply hok
      simp [api_experience, hval, throw, throwThe, MonadExcept.throw,
        MonadExceptOf.throw]
    · simp [api_experience, hval, pure, Except.pure]

/-- Witness for C6: terminal flag in non-final position with empty buffers —
the precondition error is raised. -/
theorem C6_api_experience_preconditions_witness :
    (api_experience [] [] [] [1, 0] = .error .assertionFailed ↔
      1 < (([1, 0] : List Nat).filter (fun x => x != 0)).length
      ∨ (∃ i, ∃ hi : i < ([1, 0] : List Nat).length,
          ([1, 0] : List Nat).get ⟨i, hi⟩ ≠ 0 ∧ i + 1 ≠ ([1, 0] : List Nat).length)
      ∨ ([] : List Nat).sum ≠ 0) ∧
    (api_experience [] [] [] [1, 0] ≠ .error .assertionFailed →
      api_experience [] [] [] [1, 0] =
        .ok (core_experience [] [] (([1, 0] : List Nat).map Int.ofNat))) :=
  C6_api_experience_preconditions [] [1, 0] [] [] (by decide)
